import Mathlib

/-!
# connpass-watcher — shallow embedding and verification

This development embeds the core logic of the `connpass-watcher` CLI tool
(TypeScript) in Lean 4 and proves properties of it:

* `src/matcher/keyword.ts` — `stripHtml`, `matchKeywords`
* `src/connpass/parser.ts` — `analyzeSpeakerOpportunity`
* `src/matcher/speaker.ts` — `checkSpeakerOpportunity`
* `src/calendar/google.ts` — `GoogleCalendarClient.getColorId`
* `src/matcher/llm.ts` — `LLMMatcher.analyzeEvent` (JSON extraction/cleanup
  pipeline; the LLM provider call and `JSON.parse` are platform effects and
  are supplied as an environment)
* `src/db/schema.ts` — the column lists of the two created tables
* `src/db/events.ts` — `EventRepository` (`isProcessed`, `markProcessed`,
  `needsReprocessing`, `getProcessedEvent`) over an in-memory model of the
  `processed_events` table
* `src/index.ts` — the per-event body of the `scanEvents` loop (`scanStep`),
  with the external effects (calendar upsert outcome, authentication,
  dry-run flag, clock) supplied as an environment.

JavaScript strings are modelled as Lean `String`; `toLowerCase` is modelled
by `jsToLowerCase` (ASCII case folding, which is exact on the alphabets the
keyword lists use), `includes` by substring search, and the regular
expressions used by the source are implemented character by character with
the same matching semantics.
-/

namespace ConnpassWatcher

/-- The character `<` (written via its code point). -/
def ltChar : Char := Char.ofNat 60

/-- The character `>` (written via its code point). -/
def gtChar : Char := Char.ofNat 62

/-- The opening-brace character (written via its code point). -/
def lbrace : Char := Char.ofNat 123

/-- The closing-brace character (written via its code point). -/
def rbrace : Char := Char.ofNat 125

/-- The backquote character (written via its code point). -/
def backquote : Char := Char.ofNat 96

/-- JS `toLowerCase`, as ASCII case folding of the character list (exact
on the alphabets the configured keyword lists use). -/
def jsToLowerCase (s : String) : String :=
  String.mk (s.toList.map Char.toLower)

/-- Remove leading and trailing whitespace (JS `trim`). -/
def trimWhitespace (cs : List Char) : List Char :=
  ((cs.dropWhile Char.isWhitespace).reverse.dropWhile Char.isWhitespace).reverse

/-- Whether `b` occurs as a contiguous run starting at some position of `a`. -/
def infixCheck (b : List Char) : List Char → Bool
  | [] => b.isEmpty
  | a :: rest => b.isPrefixOf (a :: rest) || infixCheck b rest

/-- JS `a.includes(b)`: `b` occurs as a contiguous substring of `a`. -/
def jsIncludes (a b : String) : Bool := infixCheck b.toList a.toList

/-- One step of the regex `/<[^>]*>/g` replacement, as a left fold.
The accumulator is the output so far plus, while inside a candidate tag,
the buffered characters since the opening `<` (JS `[^>]*` may span `<`). -/
def stripTagsStep (acc : List Char × Option (List Char)) (c : Char) :
    List Char × Option (List Char) :=
  match acc.2 with
  | none => if c = ltChar then (acc.1, some [ltChar]) else (acc.1 ++ [c], none)
  | some buf =>
      if c = gtChar then (acc.1 ++ [' '], none)
      else (acc.1, some (buf ++ [c]))

/-- Model of `html.replace(/<[^>]*>/g, " ")`: every maximal `<...>` span (no `>`
inside) becomes a single space; an unterminated `<...` tail is kept
verbatim, as the regex cannot match it. -/
def stripTags (cs : List Char) : List Char :=
  let st := cs.foldl stripTagsStep ([], none)
  match st.2 with
  | none => st.1
  | some buf => st.1 ++ buf

/-- Model of `.replace(/\s+/g, " ")`: collapse every whitespace run to one space. -/
def collapseWhitespace (cs : List Char) : List Char :=
  (cs.foldl
    (fun (acc : List Char × Bool) c =>
      if c.isWhitespace then
        if acc.2 then acc else (acc.1 ++ [' '], true)
      else (acc.1 ++ [c], false))
    ([], false)).1

/-- Translation of `stripHtml` from `src/matcher/keyword.ts` / `src/connpass/parser.ts` /
`src/matcher/llm.ts` (the three copies are textually identical):
remove tags, collapse whitespace, trim. -/
def stripHtml (html : String) : String :=
  String.mk (trimWhitespace (collapseWhitespace (stripTags html.toList)))

/-- Translation of `InterestMatch` (`src/connpass/types.ts`). -/
structure InterestMatch where
  is_match : Bool
  score : Int
  keyword_matches : List String
  llm_reason : Option String := none
  deriving Repr, DecidableEq

/-- Translation of `SpeakerOpportunity` (`src/connpass/types.ts`). -/
structure SpeakerOpportunity where
  has_opportunity : Bool
  has_lt_slot : Bool
  has_cfp : Bool
  detected_keywords : List String
  deriving Repr, DecidableEq

/-- The fields of a connpass event that the verified logic reads
(`ConnpassEvent`, `src/connpass/types.ts`). -/
structure ConnpassEvent where
  id : Nat
  title : String
  catchPhrase : String   -- the `catch` field (a Lean keyword)
  description : String
  accepted : Nat
  updated_at : String
  deriving Repr, DecidableEq

/-- Translation of `config.interests` (`src/config/schema.ts`). -/
structure InterestsConfig where
  keywords : List String
  exclude_keywords : List String
  min_participants : Nat
  deriving Repr, DecidableEq

/-- Translation of `config.google_calendar` (`src/config/schema.ts`). -/
structure GoogleCalendarConfig where
  enabled : Bool
  color_popular : String
  color_speaker : String
  deriving Repr, DecidableEq

/-- Translation of `config.llm` (the part read by `LLMMatcher.analyzeEvent`). -/
structure LLMConfig where
  enabled : Bool
  deriving Repr, DecidableEq

/-- The configuration fields read by the verified logic. -/
structure Config where
  interests : InterestsConfig
  llm : LLMConfig
  google_calendar : GoogleCalendarConfig
  deriving Repr, DecidableEq

/-- Whether one keyword hits the event (case-insensitive substring of
title, tagline, or markup-stripped description) — the loop body of
`matchKeywords` (`src/matcher/keyword.ts` lines 38-49). -/
def keywordHits (event : ConnpassEvent) (keyword : String) : Bool :=
  let kw := jsToLowerCase keyword
  jsIncludes (jsToLowerCase event.title) kw ||
  jsIncludes (jsToLowerCase event.catchPhrase) kw ||
  jsIncludes (jsToLowerCase (stripHtml event.description)) kw

/-- Translation of `matchKeywords` (`src/matcher/keyword.ts`): keyword-based interest
matching over `config.interests.keywords`. -/
def matchKeywords (event : ConnpassEvent) (config : Config) : InterestMatch :=
  let keywords := config.interests.keywords
  if keywords.isEmpty then
    { is_match := false, score := 0, keyword_matches := [] }
  else
    let matchedKeywords := keywords.filter (keywordHits event)
    -- Math.round((matched.length / keywords.length) * 100), as exact
    -- integer arithmetic: round(100*m/n) = (200*m + n) / (2*n) for m,n ≥ 0
    let score : Nat := (200 * matchedKeywords.length + keywords.length) /
      (2 * keywords.length)
    let isMatch := matchedKeywords.length > 0
    { is_match := isMatch, score := (score : Int), keyword_matches := matchedKeywords }

/-- The list `SPEAKER_KEYWORDS` (`src/connpass/parser.ts`). -/
def SPEAKER_KEYWORDS : List String :=
  ["LT", "ライトニングトーク", "登壇", "発表", "スピーカー", "登壇者", "発表者",
   "CFP", "プロポーザル", "募集",
   "lightning talk", "speaker", "presenter", "call for proposals",
   "call for papers", "proposal"]

/-- The list `SLOT_KEYWORDS` (`src/connpass/parser.ts`). -/
def SLOT_KEYWORDS : List String :=
  ["LT", "登壇", "発表", "スピーカー", "speaker", "presenter", "lightning"]

/-- The list `CFP_KEYWORDS` (`src/connpass/parser.ts`). -/
def CFP_KEYWORDS : List String :=
  ["CFP", "Call for Proposals", "Call for Papers", "発表者募集", "登壇者募集",
   "スピーカー募集", "LT募集", "LT枠募集", "発表枠募集", "募集中", "応募",
   "エントリー"]

/-- Translation of `analyzeSpeakerOpportunity` (`src/connpass/parser.ts`).  The source
pushes onto `detectedKeywords` inside `Array.some` callbacks; since `some`
short-circuits at the first `true` and the callback returns `true` exactly
when it pushes, each of the two `some` loops contributes at most its first
matching keyword, modelled here with `List.find?`. -/
def analyzeSpeakerOpportunity (event : ConnpassEvent) : SpeakerOpportunity :=
  let title := jsToLowerCase event.title
  let catchText := jsToLowerCase event.catchPhrase
  let description := jsToLowerCase (stripHtml event.description)
  let combinedText := title ++ " " ++ catchText ++ " " ++ description
  let slotHit := SLOT_KEYWORDS.find? (fun keyword =>
    let kw := jsToLowerCase keyword
    jsIncludes title kw || jsIncludes catchText kw)
  let hasLtSlot := slotHit.isSome
  let cfpHit := CFP_KEYWORDS.find? (fun keyword =>
    jsIncludes combinedText (jsToLowerCase keyword))
  let hasCfp := cfpHit.isSome
  let detected0 : List String := match slotHit with
    | some k => [k]
    | none => []
  let detected1 : List String := match cfpHit with
    | some k => if detected0.contains k then detected0 else detected0 ++ [k]
    | none => detected0
  let detectedKeywords := SPEAKER_KEYWORDS.foldl
    (fun acc keyword =>
      if jsIncludes combinedText (jsToLowerCase keyword) && !(acc.contains keyword) then
        acc ++ [keyword]
      else acc)
    detected1
  { has_opportunity := hasLtSlot || hasCfp,
    has_lt_slot := hasLtSlot,
    has_cfp := hasCfp,
    detected_keywords := detectedKeywords }

/-- Translation of `config.speaker` of the older configuration schema, read by
`checkSpeakerOpportunity` (`src/matcher/speaker.ts`). -/
structure SpeakerConfig where
  check_participant_types : Bool
  check_cfp : Bool
  deriving Repr, DecidableEq

/-- Translation of `checkSpeakerOpportunity` (`src/matcher/speaker.ts`): the heuristic
result filtered by the `speaker` configuration switches. -/
def checkSpeakerOpportunity (event : ConnpassEvent) (speaker : SpeakerConfig) :
    SpeakerOpportunity :=
  if !speaker.check_participant_types && !speaker.check_cfp then
    { has_opportunity := false, has_lt_slot := false, has_cfp := false,
      detected_keywords := [] }
  else
    let result := analyzeSpeakerOpportunity event
    let hasLtSlot := if speaker.check_participant_types then result.has_lt_slot else false
    let hasCfp := if speaker.check_cfp then result.has_cfp else false
    { has_opportunity := hasLtSlot || hasCfp,
      has_lt_slot := hasLtSlot,
      has_cfp := hasCfp,
      detected_keywords := result.detected_keywords }

/-- Translation of `GoogleCalendarClient.getColorId` (`src/calendar/google.ts`):
priority speaker > popular > default. -/
def getColorId (config : GoogleCalendarConfig)
    (hasSpeakerOpportunity isPopular : Bool) : Option String :=
  if hasSpeakerOpportunity then some config.color_speaker
  else if isPopular then some config.color_popular
  else none

/-! ## LLM matcher (`src/matcher/llm.ts`) -/

/-- The JSON object shape `LLMMatcher.analyzeEvent` expects from
`JSON.parse` (interest part). -/
structure ParsedInterest where
  is_match : Bool
  score : Int
  reason : String
  deriving Repr, DecidableEq

/-- The JSON object shape `LLMMatcher.analyzeEvent` expects from
`JSON.parse` (speaker part). -/
structure ParsedSpeaker where
  has_opportunity : Bool
  has_lt_slot : Bool
  has_cfp : Bool
  reason : Option String
  deriving Repr, DecidableEq

/-- The JSON object shape `LLMMatcher.analyzeEvent` expects. -/
structure ParsedLLMOutput where
  interest : ParsedInterest
  speaker : ParsedSpeaker
  deriving Repr, DecidableEq

/-- The platform effects of one `analyzeEvent` call: the outcome of
`provider.generateText(prompt)` (`Except.error` models a thrown exception)
and the behaviour of the builtin `JSON.parse` on the cleaned text. -/
structure LLMEnv where
  generateText : Except String String
  parseJSON : String → Except String ParsedLLMOutput

/-- Translation of `LLMAnalysisResult` (`src/matcher/llm.ts`). -/
structure LLMAnalysisResult where
  interest : InterestMatch
  speaker : SpeakerOpportunity
  deriving Repr, DecidableEq

/-- Translation of `defaultResult` in `LLMMatcher.analyzeEvent`: both verdicts negative. -/
def defaultAnalysisResult : LLMAnalysisResult :=
  { interest := { is_match := false, score := 0, keyword_matches := [] },
    speaker := { has_opportunity := false, has_lt_slot := false,
                 has_cfp := false, detected_keywords := [] } }

/-- Split a character list at the first triple-backquote fence: returns the
text before the fence and the text after it, or `none` if no fence occurs. -/
def splitFence : List Char → Option (List Char × List Char)
  | a :: b :: c :: rest =>
      if a = backquote && b = backquote && c = backquote then some ([], rest)
      else
        match splitFence (b :: c :: rest) with
        | some p => some (a :: p.1, p.2)
        | none => none
  | _ => none

/-- Group 1 of the first match of the code-block regex in
`LLMMatcher.analyzeEvent` (an optional `json` tag after the opening fence,
then optional whitespace, then a lazy capture up to the closing fence);
`none` when the regex does not match. -/
def codeBlockGroup (s : String) : Option String :=
  match splitFence s.toList with
  | none => none
  | some (_, rest) =>
      let rest2 := if ("json".toList).isPrefixOf rest then rest.drop 4 else rest
      let rest3 := rest2.dropWhile (fun c => c.isWhitespace)
      match splitFence rest3 with
      | some p => some (String.mk p.1)
      | none => none

/-- The fallback extraction in `LLMMatcher.analyzeEvent`: the slice from the
first `{` to the last `}` of the response, when both exist in that order. -/
def braceSlice (s : String) : Option String :=
  let cs := s.toList
  match cs.findIdx? (fun c => c = lbrace) with
  | none => none
  | some startIdx =>
      match cs.reverse.findIdx? (fun c => c = rbrace) with
      | none => none
      | some j =>
          let endIdx := cs.length - 1 - j
          if startIdx < endIdx then
            some (String.mk ((cs.drop startIdx).take (endIdx + 1 - startIdx)))
          else none

/-- The JSON-text extraction of `LLMMatcher.analyzeEvent`: prefer the body
of a fenced code block (falling through on an empty capture, as an empty JS
string is falsy), else the first-`{`-to-last-`}` slice; `none` models the
`No JSON found in response` throw, which the JS truthiness test also raises
when the trimmed capture is empty. -/
def extractJsonText (responseText : String) : Option String :=
  let jsonText : Option String :=
    match codeBlockGroup responseText with
    | some g =>
        if g.toList.isEmpty then braceSlice responseText
        else some (String.mk (trimWhitespace g.toList))
    | none => braceSlice responseText
  match jsonText with
  | some jt => if jt.toList.isEmpty then none else some jt
  | none => none

/-- Split at the last newline: (before it, after it).  The regex group
`([^"]*)` before `\n` is greedy, so it captures everything up to the last
newline of the quoted content. -/
def splitLastNewline (content : List Char) : List Char × List Char :=
  let g2 := (content.reverse.takeWhile (fun c => c ≠ '\n')).reverse
  (content.take (content.length - g2.length - 1), g2)

/-- Fuelled scan for the first cleanup replacement in
`LLMMatcher.analyzeEvent` — escaping a raw newline inside a quoted JSON
string value (the regex with a colon, optional whitespace, an opening
quote, non-quote content containing a newline, and a closing quote);
the replacement is a colon, one space, the quote, the content with its
last newline escaped, and the closing quote.  The fuel is an upper bound
on the scan steps; each step consumes at least one character. -/
def escapeNewlinesAux : Nat → List Char → List Char
  | 0, cs => cs
  | _ + 1, [] => []
  | fuel + 1, c :: rest =>
    if c = ':' then
      let ws := rest.takeWhile (fun d => d.isWhitespace)
      let rem := rest.drop ws.length
      match rem with
      | q :: rest2 =>
        if q = '"' then
          let content := rest2.takeWhile (fun d => d ≠ '"')
          let afterContent := rest2.drop content.length
          match afterContent with
          | q2 :: rest3 =>
            if q2 = '"' && content.contains '\n' then
              let p := splitLastNewline content
              [':', ' ', '"'] ++ p.1 ++ ['\\', 'n'] ++ p.2 ++ ['"'] ++
                escapeNewlinesAux fuel rest3
            else c :: escapeNewlinesAux fuel rest
          | [] => c :: escapeNewlinesAux fuel rest
        else c :: escapeNewlinesAux fuel rest
      | [] => c :: escapeNewlinesAux fuel rest
    else c :: escapeNewlinesAux fuel rest

/-- Fuelled scan for the second cleanup replacement in
`LLMMatcher.analyzeEvent` — dropping a comma that is followed only by
whitespace and a closing brace or bracket (the whitespace and closer are
the capture group and are kept). -/
def removeTrailingCommasAux : Nat → List Char → List Char
  | 0, cs => cs
  | _ + 1, [] => []
  | fuel + 1, c :: rest =>
    if c = ',' then
      let ws := rest.takeWhile (fun d => d.isWhitespace)
      let rem := rest.drop ws.length
      match rem with
      | d :: rest2 =>
          if d = rbrace || d = ']' then
            ws ++ d :: removeTrailingCommasAux fuel rest2
          else c :: removeTrailingCommasAux fuel rest
      | [] => c :: removeTrailingCommasAux fuel rest
    else c :: removeTrailingCommasAux fuel rest

/-- Translation of `cleanedJson` in `LLMMatcher.analyzeEvent`: escape raw newlines inside
string values, then drop trailing commas. -/
def cleanJson (jsonText : String) : String :=
  let cs := jsonText.toList
  let step1 := escapeNewlinesAux cs.length cs
  String.mk (removeTrailingCommasAux step1.length step1)

/-- Translation of `LLMMatcher.analyzeEvent` (`src/matcher/llm.ts`).  The whole body is a
try/catch returning `defaultResult` on any exception, so each failing step
(provider throw, no extractable JSON, parse error) yields the default; the
function is total, so no exception propagates.  The prompt construction is
not modelled: the provider outcome is supplied by `env`. -/
def analyzeEvent (config : Config) (env : LLMEnv) (_event : ConnpassEvent) :
    LLMAnalysisResult :=
  if !config.llm.enabled then defaultAnalysisResult
  else
    match env.generateText with
    | Except.error _ => defaultAnalysisResult
    | Except.ok responseText =>
      match extractJsonText responseText with
      | none => defaultAnalysisResult
      | some jsonText =>
        match env.parseJSON (cleanJson jsonText) with
        | Except.error _ => defaultAnalysisResult
        | Except.ok result =>
          { interest := { is_match := result.interest.is_match,
                          score := result.interest.score,
                          keyword_matches := [],
                          llm_reason := some result.interest.reason },
            speaker := { has_opportunity := result.speaker.has_opportunity,
                         has_lt_slot := result.speaker.has_lt_slot,
                         has_cfp := result.speaker.has_cfp,
                         detected_keywords :=
                           match result.speaker.reason with
                           | some r => [r]
                           | none => [] } }

/-! ## Event store (`src/db/events.ts`), modelled over an in-memory
`processed_events` table (a list of rows with unique primary key reads). -/

/-- Translation of `ProcessedEventRecord` (`src/db/events.ts`): one `processed_events`
row.  The two flags are stored as the integers 0/1, as in the database. -/
structure ProcessedEventRecord where
  event_id : Nat
  has_speaker_opportunity : Nat
  has_interest_match : Nat
  interest_score : Option Int
  calendar_event_id : Option String
  connpass_updated_at : Option String
  processed_at : String
  deriving Repr, DecidableEq

/-- The `processed_events` table contents. -/
abbrev Store := List ProcessedEventRecord

/-- The parameters of `EventRepository.markProcessed`. -/
structure MarkProcessedParams where
  eventId : Nat
  hasSpeakerOpportunity : Bool
  hasInterestMatch : Bool
  interestScore : Option Int
  calendarEventId : Option String
  connpassUpdatedAt : Option String
  deriving Repr, DecidableEq

/-- Translation of `EventRepository.getProcessedEvent`: `SELECT * FROM processed_events
WHERE event_id = ?` (primary-key point lookup, first matching row). -/
def getProcessedEvent : Store → Nat → Option ProcessedEventRecord
  | [], _ => none
  | r :: rest, eventId =>
      if r.event_id = eventId then some r else getProcessedEvent rest eventId

/-- Translation of `EventRepository.isProcessed`: the lookup returned a row. -/
def isProcessed (store : Store) (eventId : Nat) : Bool :=
  (getProcessedEvent store eventId).isSome

/-- Replace the first row with the given primary key. -/
def updateStore : Store → Nat → ProcessedEventRecord → Store
  | [], _, _ => []
  | r :: rest, eventId, newRec =>
      if r.event_id = eventId then newRec :: rest
      else r :: updateStore rest eventId newRec

/-- Translation of `EventRepository.markProcessed` (`stmtMarkProcessed`): `INSERT ... ON
CONFLICT(event_id) DO UPDATE` where the insert/update stores the flags as
0/1, the score and marker as given (`?? null`), and on conflict
`calendar_event_id = COALESCE(@calendar_event_id, calendar_event_id)`;
`processed_at` is `datetime('now')`, supplied as `now`. -/
def markProcessed (store : Store) (params : MarkProcessedParams)
    (now : String) : Store :=
  match getProcessedEvent store params.eventId with
  | none =>
      store ++ [{ event_id := params.eventId,
                  has_speaker_opportunity :=
                    if params.hasSpeakerOpportunity then 1 else 0,
                  has_interest_match :=
                    if params.hasInterestMatch then 1 else 0,
                  interest_score := params.interestScore,
                  calendar_event_id := params.calendarEventId,
                  connpass_updated_at := params.connpassUpdatedAt,
                  processed_at := now }]
  | some old =>
      updateStore store params.eventId
        { event_id := params.eventId,
          has_speaker_opportunity :=
            if params.hasSpeakerOpportunity then 1 else 0,
          has_interest_match :=
            if params.hasInterestMatch then 1 else 0,
          interest_score := params.interestScore,
          calendar_event_id :=
            match params.calendarEventId with
            | some c => some c
            | none => old.calendar_event_id,
          connpass_updated_at := params.connpassUpdatedAt,
          processed_at := now }

/-- Translation of `EventRepository.needsReprocessing` (`src/db/events.ts` lines 144-154):
false when never processed; true when the stored marker is falsy — the JS
test `!processed.connpass_updated_at` is satisfied both by a null marker
and by an empty-string marker; else compare the stored marker with the
current one. -/
def needsReprocessing (store : Store) (eventId : Nat)
    (currentUpdatedAt : String) : Bool :=
  match getProcessedEvent store eventId with
  | none => false
  | some processed =>
      match processed.connpass_updated_at with
      | none => true
      | some stored =>
          if stored.toList.isEmpty then true
          else stored ≠ currentUpdatedAt

/-! ## Database schema (`src/db/schema.ts`) and the columns referenced by
the `EventRepository` prepared statements (`src/db/events.ts`). -/

/-- The columns of the `events` table as created by `initializeDatabase`. -/
def eventsTableColumns : List String :=
  ["event_id", "title", "event_url", "started_at", "ended_at", "place",
   "address", "is_online", "is_tokyo", "created_at", "updated_at"]

/-- The columns of the `processed_events` table as created by
`initializeDatabase`. -/
def processedEventsTableColumns : List String :=
  ["event_id", "has_speaker_opportunity", "has_interest_match",
   "interest_score", "calendar_event_id", "processed_at"]

/-- The columns named by `stmtUpsertEvent`'s INSERT list. -/
def stmtUpsertEventColumns : List String :=
  ["event_id", "title", "event_url", "started_at", "ended_at", "place",
   "address", "is_online", "is_tokyo", "connpass_updated_at", "updated_at"]

/-- The columns named by `stmtMarkProcessed`'s INSERT list. -/
def stmtMarkProcessedColumns : List String :=
  ["event_id", "has_speaker_opportunity", "has_interest_match",
   "interest_score", "calendar_event_id", "connpass_updated_at"]

/-- Whether every column named by the two writing prepared statements
exists in the corresponding created table (what SQLite checks when the
statements are prepared in the `EventRepository` constructor). -/
def repositoryStatementsSupported : Bool :=
  stmtUpsertEventColumns.all (fun c => eventsTableColumns.contains c) &&
  stmtMarkProcessedColumns.all (fun c => processedEventsTableColumns.contains c)

/-! ## The scan loop body (`scanEvents`, `src/index.ts`) -/

/-- Translation of `shouldExclude` (`src/index.ts` lines 35-38): some exclude keyword is a
case-insensitive substring of the title. -/
def shouldExclude (event : ConnpassEvent) (excludeKeywords : List String) : Bool :=
  let title := jsToLowerCase event.title
  excludeKeywords.any (fun kw => jsIncludes title (jsToLowerCase kw))

/-- The per-event terminal action of `scanEvents` (`ScanResult.action`). -/
inductive ScanAction where
  | registered
  | updated
  | skipped
  | already_processed
  | excluded
  | filtered
  | no_match
  deriving Repr, DecidableEq

/-- The category assigned to a matched event. -/
inductive Category where
  | popular
  | speaker
  | interest
  deriving Repr, DecidableEq

/-- The action reported by `GoogleCalendarClient.upsertEvent`. -/
inductive CalAction where
  | created
  | updated
  | skipped
  deriving Repr, DecidableEq

/-- The value returned by `GoogleCalendarClient.upsertEvent`. -/
structure UpsertResult where
  calendarEventId : Option String
  action : CalAction
  deriving Repr, DecidableEq

/-- The per-event external effects of one pass of the scan loop: the LLM
environment, the options and configuration switches read in step 4, the
authentication state, the outcome of the calendar upsert (`Except.error`
models a thrown exception), and the clock. -/
structure ScanEnv where
  llm : LLMEnv
  dryRun : Bool
  isAuthenticated : Bool
  upsertEvent : Except String UpsertResult
  now : String

/-- JS truthiness filter for an optional string (an empty string is falsy,
as in `calendarEventId ? { calendarEventId } : {}` and
`if (colorId) result.colorId = colorId`). -/
def truthyStr : Option String → Option String
  | some s => if s.toList.isEmpty then none else some s
  | none => none

/-- The keyword label the popular short-circuit writes
(`人気(${event.accepted}人)` in `src/index.ts`). -/
def popularLabel (accepted : Nat) : String :=
  "人気(" ++ toString accepted ++ "人)"

/-- Model of `event.interest_match?.score ?? 0` (`src/index.ts`). -/
def interestScoreOf (interestMatch : Option InterestMatch) : Int :=
  (interestMatch.map (fun im => im.score)).getD 0

/-- The outcome of one pass of the `for (const event of events)` loop body
of `scanEvents`: the pushed `ScanResult` fields plus the mutated event
fields and the resulting `processed_events` contents. -/
structure ScanStepResult where
  action : ScanAction
  category : Option Category
  colorId : Option String
  calendarEventId : Option String
  interest_match : Option InterestMatch
  speaker_opportunity : Option SpeakerOpportunity
  store : Store
  deriving Repr, DecidableEq

/-- The classification stage of the loop body (`src/index.ts` lines
100-122): the popular short-circuit, else the LLM analysis.  Returns
`(hasSpeakerOpportunity, isInterested, event.interest_match,
event.speaker_opportunity)`; the event arrives with neither verdict set
(`ConnpassClient.getEvents` only adds `is_online`/`is_tokyo`). -/
def classifyStage (config : Config) (llmEnv : LLMEnv) (event : ConnpassEvent) :
    Bool × Bool × Option InterestMatch × Option SpeakerOpportunity :=
  let isPopular := config.interests.min_participants ≤ event.accepted
  if isPopular then
    (false, true,
     some { is_match := true, score := 80,
            keyword_matches := [popularLabel event.accepted] },
     none)
  else
    let llmResult := analyzeEvent config llmEnv event
    (llmResult.speaker.has_opportunity, llmResult.interest.is_match,
     some llmResult.interest, some llmResult.speaker)

/-- One pass of the `scanEvents` loop body (`src/index.ts` lines 76-208)
for one event: the already-processed check, the exclude-keyword check, the
classification, the no-match early return, the category/colour decision,
the guarded calendar upsert with its catch, the `markProcessed` call, and
the action decision. -/
def scanStep (config : Config) (env : ScanEnv) (store : Store)
    (event : ConnpassEvent) : ScanStepResult :=
  let isProc := isProcessed store event.id
  let needsRe := isProc && needsReprocessing store event.id event.updated_at
  let existingRecord : Option ProcessedEventRecord :=
    if isProc then getProcessedEvent store event.id else none
  if isProc && !needsRe then
    { action := ScanAction.already_processed, category := none,
      colorId := none, calendarEventId := none, interest_match := none,
      speaker_opportunity := none, store := store }
  else if shouldExclude event config.interests.exclude_keywords then
    { action := ScanAction.excluded, category := none, colorId := none,
      calendarEventId := none, interest_match := none,
      speaker_opportunity := none, store := store }
  else
    let isPopular := config.interests.min_participants ≤ event.accepted
    let cls := classifyStage config env.llm event
    let hasSpeakerOpportunity := cls.1
    let isInterested := cls.2.1
    let interestMatch := cls.2.2.1
    let speakerOpp := cls.2.2.2
    if !isInterested && !hasSpeakerOpportunity then
      let storeAfter := markProcessed store
        { eventId := event.id, hasSpeakerOpportunity := false,
          hasInterestMatch := false,
          interestScore := some (interestScoreOf interestMatch),
          calendarEventId := none,
          connpassUpdatedAt := some event.updated_at } env.now
      { action := ScanAction.no_match, category := none, colorId := none,
        calendarEventId := none, interest_match := interestMatch,
        speaker_opportunity := speakerOpp, store := storeAfter }
    else
      let category : Category :=
        if hasSpeakerOpportunity then Category.speaker
        else if isPopular then Category.popular
        else Category.interest
      let colorId := getColorId config.google_calendar hasSpeakerOpportunity isPopular
      let calendarEventIdBefore : Option String :=
        existingRecord.bind (fun r => r.calendar_event_id)
      let step4 : Option String × CalAction :=
        if !env.dryRun && config.google_calendar.enabled then
          if env.isAuthenticated then
            match env.upsertEvent with
            | Except.ok upsertResult =>
                (upsertResult.calendarEventId, upsertResult.action)
            | Except.error _ => (calendarEventIdBefore, CalAction.skipped)
          else (calendarEventIdBefore, CalAction.skipped)
        else (calendarEventIdBefore, CalAction.skipped)
      let calendarEventId := step4.1
      let calendarAction := step4.2
      let storeAfter := markProcessed store
        { eventId := event.id,
          hasSpeakerOpportunity := hasSpeakerOpportunity,
          hasInterestMatch := isInterested,
          interestScore := some (interestScoreOf interestMatch),
          calendarEventId := truthyStr calendarEventId,
          connpassUpdatedAt := some event.updated_at } env.now
      let action : ScanAction :=
        match calendarAction with
        | CalAction.updated => ScanAction.updated
        | CalAction.created => ScanAction.registered
        | CalAction.skipped => ScanAction.skipped
      { action := action, category := some category,
        colorId := truthyStr colorId,
        calendarEventId := truthyStr calendarEventId,
        interest_match := interestMatch,
        speaker_opportunity := speakerOpp, store := storeAfter }

/-! ## Store lemmas -/

/-- Point lookup distributes over appending rows. -/
theorem getProcessedEvent_append (s t : Store) (eventId : Nat) :
    getProcessedEvent (s ++ t) eventId =
      match getProcessedEvent s eventId with
      | some r => some r
      | none => getProcessedEvent t eventId := by
  induction s with
  | nil => rfl
  | cons r rest ih =>
      by_cases h : r.event_id = eventId <;>
        simp [getProcessedEvent, h, ih]

/-- Replacing the row for a key that is present makes the lookup return
the replacement. -/
theorem getProcessedEvent_updateStore_self (store : Store) (eventId : Nat)
    (newRec : ProcessedEventRecord) (hid : newRec.event_id = eventId)
    (h : (getProcessedEvent store eventId).isSome) :
    getProcessedEvent (updateStore store eventId newRec) eventId = some newRec := by
  induction store with
  | nil => simp [getProcessedEvent] at h
  | cons r rest ih =>
      by_cases hr : r.event_id = eventId
      · simp [updateStore, hr, getProcessedEvent, hid]
      · have h' : (getProcessedEvent rest eventId).isSome := by
          simpa [getProcessedEvent, hr] using h
        simp [updateStore, hr, getProcessedEvent, ih h']

/-- The row `markProcessed` leaves behind for its key: the flags as 0/1,
the score and marker as given, and the calendar id coalesced with any
previously stored one. -/
theorem markProcessed_lookup (store : Store) (p : MarkProcessedParams)
    (now : String) :
    getProcessedEvent (markProcessed store p now) p.eventId =
      some { event_id := p.eventId,
             has_speaker_opportunity := if p.hasSpeakerOpportunity then 1 else 0,
             has_interest_match := if p.hasInterestMatch then 1 else 0,
             interest_score := p.interestScore,
             calendar_event_id :=
               match p.calendarEventId with
               | some c => some c
               | none => (getProcessedEvent store p.eventId).bind
                   (fun r => r.calendar_event_id),
             connpass_updated_at := p.connpassUpdatedAt,
             processed_at := now } := by
  cases h : getProcessedEvent store p.eventId with
  | none =>
      simp only [markProcessed, h]
      rw [getProcessedEvent_append, h]
      cases p.calendarEventId <;> simp [getProcessedEvent]
  | some old =>
      simp only [markProcessed, h]
      rw [getProcessedEvent_updateStore_self store p.eventId _ rfl
        (by rw [h]; rfl)]
      cases p.calendarEventId <;> simp

/-! ## C3 — `needsReprocessing` contract (amended) -/

/-- A non-empty string has a non-empty character list. -/
theorem data_ne_nil_of_ne_empty (s : String) (h : s ≠ "") :
    s.data ≠ [] := by
  obtain ⟨data⟩ := s
  cases data with
  | nil => exact absurd rfl h
  | cons c cs => simp

/-- C3 (amended): `needsReprocessing(id, currentFreshnessMarker)` is false
when no record exists for `id`; with a record it is true when the stored
freshness marker is absent OR the empty string (JS falsiness of
`!processed.connpass_updated_at`), compares the stored marker with the
current one when it is a non-empty string, and is false right after a
`markProcessed` call for `id` that stored the same non-empty marker. -/
theorem needsReprocessing_contract (store : Store) (eventId : Nat) (m : String) :
    (getProcessedEvent store eventId = none →
      needsReprocessing store eventId m = false) ∧
    (∀ r, getProcessedEvent store eventId = some r →
      r.connpass_updated_at = none →
      needsReprocessing store eventId m = true) ∧
    (∀ r, getProcessedEvent store eventId = some r →
      r.connpass_updated_at = some "" →
      needsReprocessing store eventId m = true) ∧
    (∀ r s, getProcessedEvent store eventId = some r →
      r.connpass_updated_at = some s → s ≠ "" →
      (needsReprocessing store eventId m = true ↔ s ≠ m)) ∧
    (∀ p now, p.eventId = eventId → p.connpassUpdatedAt = some m → m ≠ "" →
      needsReprocessing (markProcessed store p now) eventId m = false) := by
  refine ⟨fun h => ?_, fun r hr hn => ?_, fun r hr hn => ?_,
    fun r s hr hs hsne => ?_, fun p now hp hm hmne => ?_⟩
  · simp [needsReprocessing, h]
  · simp [needsReprocessing, hr, hn]
  · simp only [needsReprocessing, hr, hn]
    rfl
  · have hd := data_ne_nil_of_ne_empty s hsne
    simp [needsReprocessing, hr, hs, hd]
  · subst hp
    have hd := data_ne_nil_of_ne_empty m hmne
    have hl := markProcessed_lookup store p now
    simp [needsReprocessing, hl, hm, hd]

/-- The parameters of a `markProcessed` call whose event carries an
empty-string freshness marker (`params.connpassUpdatedAt ?? null` keeps
the empty string, since nullish coalescing only replaces null/undefined). -/
def pEmptyMarker : MarkProcessedParams :=
  { eventId := 9, hasSpeakerOpportunity := false, hasInterestMatch := false,
    interestScore := some 0, calendarEventId := none,
    connpassUpdatedAt := some "" }

/-- Counterexample for C3 as stated: after a `markProcessed` call that
stored the empty-string marker, `needsReprocessing` with the equal current
marker `""` returns true — the stored marker equals the current one, yet
the JS falsiness test treats it as absent. -/
theorem needsReprocessing_empty_marker_cex :
    ((getProcessedEvent (markProcessed [] pEmptyMarker "t0") 9).map
      (fun r => r.connpass_updated_at)) = some (some "") ∧
    needsReprocessing (markProcessed [] pEmptyMarker "t0") 9 "" = true := by
  refine ⟨rfl, rfl⟩

/-- A concrete `processed_events` row used by witnesses. -/
def rowW : ProcessedEventRecord :=
  { event_id := 7, has_speaker_opportunity := 0, has_interest_match := 1,
    interest_score := some 40, calendar_event_id := some "cal-7",
    connpass_updated_at := some "2024-01-01T00:00:00", processed_at := "t0" }

/-- A concrete `markProcessed` parameter set used by witnesses (no
calendar id in the write). -/
def paramsW : MarkProcessedParams :=
  { eventId := 7, hasSpeakerOpportunity := true, hasInterestMatch := false,
    interestScore := some 10, calendarEventId := none,
    connpassUpdatedAt := some "2024-02-02T00:00:00" }

/-- Witness for C3 (amended) at concrete inputs. -/
theorem needsReprocessing_contract_witness :
    needsReprocessing [] 7 "2024-01-01T00:00:00" = false ∧
    needsReprocessing [rowW] 7 "2024-02-02T00:00:00" = true ∧
    needsReprocessing [rowW] 7 "2024-01-01T00:00:00" = false ∧
    needsReprocessing (markProcessed [rowW] paramsW "t1") 7
      "2024-02-02T00:00:00" = false := by
  have h1 := (needsReprocessing_contract [] 7 "2024-01-01T00:00:00").1 rfl
  have h2 := ((needsReprocessing_contract [rowW] 7
    "2024-02-02T00:00:00").2.2.2.1 rowW "2024-01-01T00:00:00" rfl rfl
    (by decide)).2 (by decide)
  have h3 := (needsReprocessing_contract [rowW] 7
    "2024-01-01T00:00:00").2.2.2.1 rowW "2024-01-01T00:00:00" rfl rfl
    (by decide)
  have h4 := (needsReprocessing_contract [rowW] 7
    "2024-02-02T00:00:00").2.2.2.2 paramsW "t1" rfl rfl (by decide)
  refine ⟨h1, h2, ?_, h4⟩
  cases hb : needsReprocessing [rowW] 7 "2024-01-01T00:00:00"
  · rfl
  · exact absurd (h3.mp hb) (by simp)

/-! ## C7 — calendar-id coalesce law -/

/-- C7: when a stored record has a non-null calendar id, a `markProcessed`
write with an absent calendar id keeps the stored one, and a write with a
non-null id replaces it (`COALESCE(@calendar_event_id, calendar_event_id)`). -/
theorem markProcessed_coalesce (store : Store) (r : ProcessedEventRecord)
    (c : String) (p : MarkProcessedParams) (now : String)
    (hr : getProcessedEvent store p.eventId = some r)
    (hc : r.calendar_event_id = some c) :
    ∃ r2, getProcessedEvent (markProcessed store p now) p.eventId = some r2 ∧
      r2.calendar_event_id = some (p.calendarEventId.getD c) := by
  refine ⟨_, markProcessed_lookup store p now, ?_⟩
  cases hp : p.calendarEventId <;> simp [hp, hr, hc]

/-- Witness for C7: a null write preserves `cal-7`; a non-null write
replaces it. -/
theorem markProcessed_coalesce_witness :
    (∃ r2, getProcessedEvent (markProcessed [rowW] paramsW "t1") 7 = some r2 ∧
      r2.calendar_event_id = some "cal-7") ∧
    (∃ r2, getProcessedEvent
        (markProcessed [rowW] { paramsW with calendarEventId := some "cal-new" } "t1")
        7 = some r2 ∧
      r2.calendar_event_id = some "cal-new") :=
  ⟨markProcessed_coalesce [rowW] rowW "cal-7" paramsW "t1" rfl rfl,
   markProcessed_coalesce [rowW] rowW "cal-7"
     { paramsW with calendarEventId := some "cal-new" } "t1" rfl rfl⟩

/-! ## C8 — schema vs. prepared statements -/

/-- C8 (code bug in `src/db/schema.ts`): the freshness-marker column
`connpass_updated_at` is named by both writing prepared statements of
`EventRepository` but is created by `initializeDatabase` in neither table,
so preparing/running them on a fresh database fails with a missing-column
error. -/
theorem schema_lacks_freshness_column :
    repositoryStatementsSupported = false ∧
    stmtMarkProcessedColumns.contains "connpass_updated_at" = true ∧
    processedEventsTableColumns.contains "connpass_updated_at" = false ∧
    stmtUpsertEventColumns.contains "connpass_updated_at" = true ∧
    eventsTableColumns.contains "connpass_updated_at" = false := by
  refine ⟨rfl, rfl, rfl, rfl, rfl⟩

/-! ## C9 — colour priority -/

/-- C9: `getColorId` obeys speaker > popular > default: with the speaker
flag set it returns the speaker colour even when the popular flag is also
set; else the popular flag selects the popular colour; else no colour. -/
theorem getColorId_priority (config : GoogleCalendarConfig) :
    (∀ isPopular, getColorId config true isPopular = some config.color_speaker) ∧
    getColorId config false true = some config.color_popular ∧
    getColorId config false false = none := by
  refine ⟨fun isPopular => rfl, rfl, rfl⟩

/-! ## C10 — keyword matching -/

/-- C10: `matchKeywords` returns no match and score 0 on an empty keyword
list; its match flag is set exactly when some configured keyword is a
case-insensitive substring of the title, the tagline, or the
markup-stripped description; and on a non-empty list its score is the
rounded percentage of matched keywords. -/
theorem matchKeywords_contract (event : ConnpassEvent) (config : Config) :
    (config.interests.keywords = [] →
      matchKeywords event config =
        { is_match := false, score := 0, keyword_matches := [] }) ∧
    ((matchKeywords event config).is_match = true ↔
      ∃ kw ∈ config.interests.keywords, keywordHits event kw = true) ∧
    (config.interests.keywords ≠ [] →
      (matchKeywords event config).score =
        round ((100 * (config.interests.keywords.countP (keywordHits event) : ℚ)) /
          (config.interests.keywords.length : ℚ))) := by
  by_cases hkw : config.interests.keywords = []
  · refine ⟨fun _ => ?_, ?_, fun h => absurd hkw h⟩
    · simp [matchKeywords, hkw]
    · simp [matchKeywords, hkw]
  · have hne : config.interests.keywords.isEmpty = false := by
      simpa [List.isEmpty_iff] using hkw
    refine ⟨fun h => absurd h hkw, ?_, fun _ => ?_⟩
    · simp only [matchKeywords, hne, Bool.false_eq_true, if_false, gt_iff_lt,
        decide_eq_true_eq, ← List.countP_eq_length_filter]
      exact List.countP_pos_iff
    · have hlen : 0 < config.interests.keywords.length :=
        List.length_pos.mpr hkw
      have hlenQ : ((config.interests.keywords.length : ℚ)) ≠ 0 := by
        exact_mod_cast Nat.pos_iff_ne_zero.mp hlen
      simp only [matchKeywords, hne, Bool.false_eq_true, if_false,
        ← List.countP_eq_length_filter]
      rw [round_eq]
      have harith :
          (100 * (config.interests.keywords.countP (keywordHits event) : ℚ)) /
              (config.interests.keywords.length : ℚ) + 1 / 2 =
            ((200 * config.interests.keywords.countP (keywordHits event) +
                config.interests.keywords.length : ℕ) : ℚ) /
              ((2 * config.interests.keywords.length : ℕ) : ℚ) := by
        push_cast
        field_simp
        ring
      rw [harith, Rat.floor_natCast_div_natCast]
      exact (Int.ofNat_div _ _).symm

/-- A concrete event used by the C10 witness. -/
def evKw : ConnpassEvent :=
  { id := 11, title := "Rust Meetup", catchPhrase := "",
    description := "<p>hands-on session</p>", accepted := 10,
    updated_at := "u" }

/-- A concrete configuration with two interest keywords. -/
def cfgKw : Config :=
  { interests := { keywords := ["rust", "go"], exclude_keywords := [],
                   min_participants := 50 },
    llm := { enabled := true },
    google_calendar := { enabled := true, color_popular := "6",
                         color_speaker := "9" } }

/-- Witness for C10: one of two keywords hits, so the score is the rounded
percentage 50 and the match flag is set. -/
theorem matchKeywords_contract_witness :
    cfgKw.interests.keywords ≠ [] ∧
    (matchKeywords evKw cfgKw).score =
      round ((100 * (cfgKw.interests.keywords.countP (keywordHits evKw) : ℚ)) /
        (cfgKw.interests.keywords.length : ℚ)) ∧
    ((matchKeywords evKw cfgKw).is_match = true ↔
      ∃ kw ∈ cfgKw.interests.keywords, keywordHits evKw kw = true) := by
  refine ⟨by simp [cfgKw], (matchKeywords_contract evKw cfgKw).2.2 (by simp [cfgKw]),
    (matchKeywords_contract evKw cfgKw).2.1⟩

/-! ## Scan-step reduction helpers -/

/-- The already-processed guard of the loop body is off exactly when the
event is unprocessed or needs reprocessing. -/
theorem scan_guard_off (store : Store) (event : ConnpassEvent)
    (hproc : isProcessed store event.id = false ∨
      needsReprocessing store event.id event.updated_at = true) :
    (isProcessed store event.id &&
      !(isProcessed store event.id &&
        needsReprocessing store event.id event.updated_at)) = false := by
  rcases hproc with h | h <;> simp [h]

/-- The classification stage short-circuits on a popular event. -/
theorem classifyStage_popular (config : Config) (llmEnv : LLMEnv)
    (event : ConnpassEvent)
    (hpop : config.interests.min_participants ≤ event.accepted) :
    classifyStage config llmEnv event =
      (false, true,
       some { is_match := true, score := 80,
              keyword_matches := [popularLabel event.accepted],
              llm_reason := none },
       none) := by
  simp [classifyStage, hpop]

/-- The classification stage delegates to the LLM below the threshold. -/
theorem classifyStage_llm (config : Config) (llmEnv : LLMEnv)
    (event : ConnpassEvent)
    (hpop : event.accepted < config.interests.min_participants) :
    classifyStage config llmEnv event =
      ((analyzeEvent config llmEnv event).speaker.has_opportunity,
       (analyzeEvent config llmEnv event).interest.is_match,
       some (analyzeEvent config llmEnv event).interest,
       some (analyzeEvent config llmEnv event).speaker) := by
  simp [classifyStage, Nat.not_le.mpr hpop]

/-! ## C1 — popular short-circuit (amended) -/

/-- C1 (amended): for an unprocessed (or updated), non-excluded event at or
above the participant threshold, the interest verdict short-circuits to
match = true, score = 80, with the single popular label, the event is
categorised `popular`, the stored record has the interest flag set, and
the LLM is not consulted (the step result is independent of the LLM
environment); but the speaker verdict is NOT computed in this path — it is
left unset and the stored speaker flag is 0. -/
theorem popular_short_circuit (config : Config) (env : ScanEnv)
    (store : Store) (event : ConnpassEvent)
    (hproc : isProcessed store event.id = false ∨
      needsReprocessing store event.id event.updated_at = true)
    (hexc : shouldExclude event config.interests.exclude_keywords = false)
    (hpop : config.interests.min_participants ≤ event.accepted) :
    (scanStep config env store event).interest_match =
      some { is_match := true, score := 80,
             keyword_matches := [popularLabel event.accepted],
             llm_reason := none } ∧
    (scanStep config env store event).speaker_opportunity = none ∧
    (scanStep config env store event).category = some Category.popular ∧
    (∃ r2, getProcessedEvent (scanStep config env store event).store event.id
        = some r2 ∧
      r2.has_speaker_opportunity = 0 ∧ r2.has_interest_match = 1 ∧
      r2.interest_score = some 80) ∧
    (∀ llmEnv, scanStep config { env with llm := llmEnv } store event =
      scanStep config env store event) := by
  have hg := scan_guard_off store event hproc
  have hcls := classifyStage_popular config env.llm event hpop
  refine ⟨?_, ?_, ?_, ?_, ?_⟩
  · simp only [scanStep]
    rw [hg, hexc, hcls]
    simp [hpop, interestScoreOf]
  · simp only [scanStep]
    rw [hg, hexc, hcls]
    simp [hpop, interestScoreOf]
  · simp only [scanStep]
    rw [hg, hexc, hcls]
    simp [hpop, interestScoreOf]
  · simp only [scanStep]
    rw [hg, hexc, hcls]
    simp only [Bool.false_eq_true, if_false, Bool.not_true, Bool.not_false,
      Bool.and_false, Bool.false_and, Bool.and_true, Bool.true_and, if_true]
    exact ⟨_, markProcessed_lookup store _ env.now, rfl, rfl, rfl⟩
  · intro llmEnv
    have hcls2 := classifyStage_popular config llmEnv event hpop
    simp only [scanStep]
    rw [hg, hexc, hcls, hcls2]

/-! ## Concrete fixtures and the C1 witness/counterexample -/

/-- An LLM environment whose provider call throws. -/
def llmFailEnv : LLMEnv :=
  { generateText := Except.error "network error",
    parseJSON := fun _ => Except.error "parse error" }

/-- A scan environment with a dry run (the calendar branch is skipped). -/
def envDry : ScanEnv :=
  { llm := llmFailEnv, dryRun := true, isAuthenticated := false,
    upsertEvent := Except.error "unused", now := "T0" }

/-- A scan environment where the calendar upsert throws. -/
def envUpsertFail : ScanEnv :=
  { llm := llmFailEnv, dryRun := false, isAuthenticated := true,
    upsertEvent := Except.error "network", now := "T0" }

/-- A base configuration: threshold 50, one exclude keyword, LLM and
calendar enabled. -/
def cfgBase : Config :=
  { interests := { keywords := [], exclude_keywords := ["book club"],
                   min_participants := 50 },
    llm := { enabled := true },
    google_calendar := { enabled := true, color_popular := "6",
                         color_speaker := "9" } }

/-- A popular event whose title plainly advertises an LT slot. -/
def evLtPopular : ConnpassEvent :=
  { id := 1, title := "LT大会", catchPhrase := "", description := "",
    accepted := 100, updated_at := "u1" }

/-- An event whose title matches the exclude keyword. -/
def evBookClub : ConnpassEvent :=
  { id := 2, title := "Book Club Night", catchPhrase := "", description := "",
    accepted := 60, updated_at := "u1" }

/-- A small event below the popularity threshold. -/
def evSmall : ConnpassEvent :=
  { id := 3, title := "tiny meetup", catchPhrase := "", description := "",
    accepted := 5, updated_at := "u1" }

/-- Witness for C1 (amended) at concrete inputs: threshold 50, 100
accepted participants. -/
theorem popular_short_circuit_witness :
    (scanStep cfgBase envDry [] evLtPopular).interest_match =
      some { is_match := true, score := 80,
             keyword_matches := [popularLabel 100], llm_reason := none } ∧
    (scanStep cfgBase envDry [] evLtPopular).speaker_opportunity = none ∧
    (scanStep cfgBase envDry [] evLtPopular).category =
      some Category.popular := by
  have h := popular_short_circuit cfgBase envDry [] evLtPopular (Or.inl rfl)
    (by decide) (by decide)
  exact ⟨h.1, h.2.1, h.2.2.1⟩

/-- Counterexample for C1's speaker clause: on a popular event whose very
title makes the Text Heuristics report an opportunity, the scan leaves the
speaker verdict unset and stores the speaker flag as 0 — the heuristics
are not consulted in the popular path. -/
theorem popular_speaker_not_computed_cex :
    (analyzeSpeakerOpportunity evLtPopular).has_opportunity = true ∧
    cfgBase.interests.min_participants ≤ evLtPopular.accepted ∧
    (scanStep cfgBase envDry [] evLtPopular).speaker_opportunity = none ∧
    ((getProcessedEvent (scanStep cfgBase envDry [] evLtPopular).store
        evLtPopular.id).map (fun r => r.has_speaker_opportunity)) = some 0 := by
  refine ⟨rfl, by decide, rfl, rfl⟩

/-! ## C2 — exclusion (amended) -/

/-- C2 (amended): for an unprocessed (or updated) event whose title matches
an exclude keyword, the terminal action is `excluded`, the classifier is
never invoked (the result is independent of the LLM environment and no
verdict is attached), and — contrary to the original claim — NO
ProcessedRecord is written: the store is unchanged. -/
theorem excluded_terminal (config : Config) (env : ScanEnv) (store : Store)
    (event : ConnpassEvent)
    (hproc : isProcessed store event.id = false ∨
      needsReprocessing store event.id event.updated_at = true)
    (hexc : shouldExclude event config.interests.exclude_keywords = true) :
    (scanStep config env store event).action = ScanAction.excluded ∧
    (scanStep config env store event).store = store ∧
    (scanStep config env store event).interest_match = none ∧
    (scanStep config env store event).speaker_opportunity = none ∧
    (∀ llmEnv, scanStep config { env with llm := llmEnv } store event =
      scanStep config env store event) := by
  have hg := scan_guard_off store event hproc
  refine ⟨?_, ?_, ?_, ?_, fun llmEnv => ?_⟩ <;>
    · simp only [scanStep]
      rw [hg, hexc]
      simp

/-- Witness for C2 (amended) at concrete inputs. -/
theorem excluded_terminal_witness :
    (scanStep cfgBase envDry [] evBookClub).action = ScanAction.excluded ∧
    (scanStep cfgBase envDry [] evBookClub).store = [] := by
  have h := excluded_terminal cfgBase envDry [] evBookClub (Or.inl rfl)
    (by decide)
  exact ⟨h.1, h.2.1⟩

/-- Counterexample for C2 as stated: the excluded event gets NO
ProcessedRecord (the claim says one is still written with both flags
false), so it will be re-checked on the next scan. -/
theorem excluded_no_record_cex :
    shouldExclude evBookClub cfgBase.interests.exclude_keywords = true ∧
    (scanStep cfgBase envDry [] evBookClub).action = ScanAction.excluded ∧
    getProcessedEvent (scanStep cfgBase envDry [] evBookClub).store
      evBookClub.id = none := by
  refine ⟨by decide, rfl, rfl⟩

/-! ## C4 — calendar-write failure -/

/-- C4 (amended): when an event with a non-empty freshness marker reaches
step 4 (matched, calendar enabled, not a dry run, authenticated) and the
upsert throws, the error is swallowed (the step is total and returns
normally), the terminal action is `skipped`, `markProcessed` still records
the verdict flags, score and current freshness marker, and any subsequent
scan of the same (unchanged) event reports `already_processed`.  The
non-emptiness condition is forced by the JS falsiness in
`needsReprocessing`: an empty-string marker is stored but then treated as
absent, so such an event is reprocessed instead. -/
theorem calendar_failure_persisted (config : Config) (env : ScanEnv)
    (store : Store) (event : ConnpassEvent) (e : String)
    (hproc : isProcessed store event.id = false ∨
      needsReprocessing store event.id event.updated_at = true)
    (hexc : shouldExclude event config.interests.exclude_keywords = false)
    (hmatch : (classifyStage config env.llm event).2.1 = true ∨
      (classifyStage config env.llm event).1 = true)
    (hdry : env.dryRun = false)
    (hcal : config.google_calendar.enabled = true)
    (hauth : env.isAuthenticated = true)
    (hupsert : env.upsertEvent = Except.error e)
    (hupd : event.updated_at ≠ "") :
    (scanStep config env store event).action = ScanAction.skipped ∧
    (∃ r2, getProcessedEvent (scanStep config env store event).store event.id
        = some r2 ∧
      r2.has_speaker_opportunity =
        (if (classifyStage config env.llm event).1 then 1 else 0) ∧
      r2.has_interest_match =
        (if (classifyStage config env.llm event).2.1 then 1 else 0) ∧
      r2.interest_score =
        some (interestScoreOf (classifyStage config env.llm event).2.2.1) ∧
      r2.connpass_updated_at = some event.updated_at) ∧
    (∀ env2, (scanStep config env2 (scanStep config env store event).store
      event).action = ScanAction.already_processed) := by
  have hg := scan_guard_off store event hproc
  have hno : (!(classifyStage config env.llm event).2.1 &&
      !(classifyStage config env.llm event).1) = false := by
    rcases hmatch with h | h <;> simp [h]
  have hstore : (scanStep config env store event).store =
      markProcessed store
        { eventId := event.id,
          hasSpeakerOpportunity := (classifyStage config env.llm event).1,
          hasInterestMatch := (classifyStage config env.llm event).2.1,
          interestScore :=
            some (interestScoreOf (classifyStage config env.llm event).2.2.1),
          calendarEventId := truthyStr
            ((if isProcessed store event.id then getProcessedEvent store event.id
              else none).bind (fun r => r.calendar_event_id)),
          connpassUpdatedAt := some event.updated_at } env.now := by
    simp only [scanStep]
    rw [hg, hexc, hno, hdry, hcal, hauth, hupsert]
    simp
  have hlook := markProcessed_lookup store
    { eventId := event.id,
      hasSpeakerOpportunity := (classifyStage config env.llm event).1,
      hasInterestMatch := (classifyStage config env.llm event).2.1,
      interestScore :=
        some (interestScoreOf (classifyStage config env.llm event).2.2.1),
      calendarEventId := truthyStr
        ((if isProcessed store event.id then getProcessedEvent store event.id
          else none).bind (fun r => r.calendar_event_id)),
      connpassUpdatedAt := some event.updated_at } env.now
  have h2 : ∃ r2, getProcessedEvent (scanStep config env store event).store
      event.id = some r2 ∧
      r2.has_speaker_opportunity =
        (if (classifyStage config env.llm event).1 then 1 else 0) ∧
      r2.has_interest_match =
        (if (classifyStage config env.llm event).2.1 then 1 else 0) ∧
      r2.interest_score =
        some (interestScoreOf (classifyStage config env.llm event).2.2.1) ∧
      r2.connpass_updated_at = some event.updated_at := by
    rw [hstore]
    exact ⟨_, hlook, rfl, rfl, rfl, rfl⟩
  refine ⟨?_, h2, ?_⟩
  · simp only [scanStep]
    rw [hg, hexc, hno, hdry, hcal, hauth, hupsert]
    simp
  · intro env2
    obtain ⟨r2, hr2, _, _, _, hconn⟩ := h2
    have hd := data_ne_nil_of_ne_empty event.updated_at hupd
    set S := (scanStep config env store event).store with hS
    have hguard : (isProcessed S event.id &&
        !(isProcessed S event.id &&
          needsReprocessing S event.id event.updated_at)) = true := by
      simp [isProcessed, needsReprocessing, hr2, hconn, hd]
    simp only [scanStep]
    rw [hguard]
    simp

/-- Witness for C4 at concrete inputs: a popular event, calendar upsert
throwing. -/
theorem calendar_failure_persisted_witness :
    (scanStep cfgBase envUpsertFail [] evLtPopular).action =
      ScanAction.skipped ∧
    (∃ r2, getProcessedEvent (scanStep cfgBase envUpsertFail [] evLtPopular).store
        1 = some r2 ∧ r2.connpass_updated_at = some "u1") ∧
    (scanStep cfgBase envDry
      (scanStep cfgBase envUpsertFail [] evLtPopular).store
      evLtPopular).action = ScanAction.already_processed := by
  have h := calendar_failure_persisted cfgBase envUpsertFail [] evLtPopular
    "network" (Or.inl rfl) (by decide) (Or.inl (by decide)) rfl rfl rfl rfl
    (by decide)
  obtain ⟨r2, hr2, _, _, _, hconn⟩ := h.2.1
  exact ⟨h.1, ⟨r2, hr2, hconn⟩, h.2.2 envDry⟩

/-- An event with an empty-string freshness marker; popular and not
excluded, so it reaches the calendar step. -/
def evEmptyMarker : ConnpassEvent :=
  { id := 4, title := "big meetup", catchPhrase := "", description := "",
    accepted := 100, updated_at := "" }

/-- Counterexample for C4 as stated: for an event whose freshness marker
is the empty string, the failed calendar write is still recorded as
`skipped` and the marker `""` is persisted, but the next scan of the
unchanged event does NOT report `already_processed` — the stored empty
marker is falsy, so the event is reprocessed (here: `skipped` again). -/
theorem calendar_failure_empty_marker_cex :
    (scanStep cfgBase envUpsertFail [] evEmptyMarker).action =
      ScanAction.skipped ∧
    ((getProcessedEvent (scanStep cfgBase envUpsertFail [] evEmptyMarker).store
        4).map (fun r => r.connpass_updated_at)) = some (some "") ∧
    (scanStep cfgBase envDry
        (scanStep cfgBase envUpsertFail [] evEmptyMarker).store
        evEmptyMarker).action = ScanAction.skipped ∧
    (scanStep cfgBase envDry
        (scanStep cfgBase envUpsertFail [] evEmptyMarker).store
        evEmptyMarker).action ≠ ScanAction.already_processed := by
  refine ⟨rfl, rfl, rfl, by decide⟩

/-! ## C5 — LLM failure yields the safe default -/

/-- C5: `analyzeEvent` never propagates an exception (it is a total
function); whenever the provider call throws, no JSON can be extracted
from the response, or the extracted JSON fails to parse, the result is the
safe default with both verdicts negative and score 0; and the orchestrator
then records such an unprocessed, non-excluded, below-threshold event as
`no_match`, persisting both flags as 0. -/
theorem llm_failure_no_match (config : Config) (env : ScanEnv)
    (store : Store) (event : ConnpassEvent)
    (hfail : (∃ e, env.llm.generateText = Except.error e) ∨
      (∃ rt, env.llm.generateText = Except.ok rt ∧
        extractJsonText rt = none) ∨
      (∃ rt jt e, env.llm.generateText = Except.ok rt ∧
        extractJsonText rt = some jt ∧
        env.llm.parseJSON (cleanJson jt) = Except.error e)) :
    analyzeEvent config env.llm event = defaultAnalysisResult ∧
    ((isProcessed store event.id = false ∨
        needsReprocessing store event.id event.updated_at = true) →
      shouldExclude event config.interests.exclude_keywords = false →
      event.accepted < config.interests.min_participants →
      (scanStep config env store event).action = ScanAction.no_match ∧
      ∃ r2, getProcessedEvent (scanStep config env store event).store
          event.id = some r2 ∧
        r2.has_speaker_opportunity = 0 ∧ r2.has_interest_match = 0 ∧
        r2.interest_score = some 0) := by
  have hdefault : analyzeEvent config env.llm event = defaultAnalysisResult := by
    by_cases hen : config.llm.enabled
    · rcases hfail with ⟨e, h⟩ | ⟨rt, hok, hex⟩ | ⟨rt, jt, e, hok, hex, hperr⟩
      · simp [analyzeEvent, hen, h]
      · simp [analyzeEvent, hen, hok, hex]
      · simp [analyzeEvent, hen, hok, hex, hperr]
    · simp [analyzeEvent, hen]
  refine ⟨hdefault, fun hproc hexc hnpop => ?_⟩
  have hg := scan_guard_off store event hproc
  have hcls : classifyStage config env.llm event =
      (false, false, some defaultAnalysisResult.interest,
        some defaultAnalysisResult.speaker) := by
    rw [classifyStage_llm config env.llm event hnpop, hdefault]
    rfl
  constructor
  · simp only [scanStep]
    rw [hg, hexc, hcls]
    simp
  · simp only [scanStep]
    rw [hg, hexc, hcls]
    simp only [Bool.not_false, Bool.and_self, if_true, Bool.false_eq_true,
      if_false, ite_true, ite_false]
    exact ⟨_, markProcessed_lookup store _ env.now, rfl, rfl, rfl⟩

/-- Witness for C5: a throwing provider on a small event over an empty
store. -/
theorem llm_failure_no_match_witness :
    analyzeEvent cfgBase envDry.llm evSmall = defaultAnalysisResult ∧
    (scanStep cfgBase envDry [] evSmall).action = ScanAction.no_match ∧
    ∃ r2, getProcessedEvent (scanStep cfgBase envDry [] evSmall).store 3 =
        some r2 ∧ r2.has_interest_match = 0 := by
  have h := llm_failure_no_match cfgBase envDry [] evSmall
    (Or.inl ⟨"network error", rfl⟩)
  have h2 := h.2 (Or.inl rfl) (by decide) (by decide)
  obtain ⟨r2, hr2, _, hm, _⟩ := h2.2
  exact ⟨h.1, h2.1, r2, hr2, hm⟩

/-! ## C6 — speaker-verdict invariant (amended) -/

/-- C6 (amended): the invariant `has_opportunity = has_lt_slot OR has_cfp`
holds for every verdict produced by the Text Heuristics
(`analyzeSpeakerOpportunity` and `checkSpeakerOpportunity`) and for the
LLM path's default result — but not, in general, for the LLM success
path, which copies all three flags from the model output unchecked. -/
theorem speaker_invariant_heuristics (event : ConnpassEvent)
    (speaker : SpeakerConfig) :
    ((analyzeSpeakerOpportunity event).has_opportunity =
      ((analyzeSpeakerOpportunity event).has_lt_slot ||
        (analyzeSpeakerOpportunity event).has_cfp)) ∧
    ((checkSpeakerOpportunity event speaker).has_opportunity =
      ((checkSpeakerOpportunity event speaker).has_lt_slot ||
        (checkSpeakerOpportunity event speaker).has_cfp)) ∧
    (defaultAnalysisResult.speaker.has_opportunity =
      (defaultAnalysisResult.speaker.has_lt_slot ||
        defaultAnalysisResult.speaker.has_cfp)) := by
  refine ⟨rfl, ?_, rfl⟩
  simp only [checkSpeakerOpportunity]
  split
  · rfl
  · rfl

/-- An LLM environment whose (well-formed) output asserts an opportunity
with neither an LT slot nor a CFP. -/
def llmBadEnv : LLMEnv :=
  { generateText := Except.ok "\x7b\x7d",
    parseJSON := fun _ => Except.ok
      { interest := { is_match := true, score := 50, reason := "r" },
        speaker := { has_opportunity := true, has_lt_slot := false,
                     has_cfp := false, reason := none } } }

/-- Counterexample for C6 as stated: the LLM classification path passes
the model's `has_opportunity` through, violating the invariant. -/
theorem speaker_invariant_llm_cex :
    (analyzeEvent cfgBase llmBadEnv evSmall).speaker.has_opportunity = true ∧
    (analyzeEvent cfgBase llmBadEnv evSmall).speaker.has_lt_slot = false ∧
    (analyzeEvent cfgBase llmBadEnv evSmall).speaker.has_cfp = false ∧
    ¬((analyzeEvent cfgBase llmBadEnv evSmall).speaker.has_opportunity =
      ((analyzeEvent cfgBase llmBadEnv evSmall).speaker.has_lt_slot ||
        (analyzeEvent cfgBase llmBadEnv evSmall).speaker.has_cfp)) := by
  refine ⟨rfl, rfl, rfl, by decide⟩

end ConnpassWatcher
